import Mathlib

/-!
# ProFAB feature-extraction module: a shallow embedding

A shallow embedding of `profab/utils/feature_extraction_module/utils.py` and
`profab/utils/feature_extraction_module/feature_extracter.py`, with theorems
checking the natural-language specification against the code.

File I/O is modelled by passing file contents as lists of lines (each line
with its terminator already removed, as Python's `str.strip()` produces);
directories are modelled by the list of their filenames; network and
subprocess side effects are modelled by an explicit event trace.

All string operations used by the source act on single-character delimiters,
so they are implemented here by structural recursion over `String.data`,
which keeps every definition kernel-evaluable.
-/

namespace ProFAB

/-! ## Python-style string primitives -/

/-- Character-level whitespace test covering the characters Python's
`str.strip()` removes on the data we model. -/
def isPyWs (c : Char) : Bool :=
  c = ' ' || c = '\t' || c = '\n' || c = '\r'

/-- Python `str.strip()`: remove leading and trailing whitespace. -/
def pyStrip (s : String) : String :=
  ⟨((s.data.dropWhile isPyWs).reverse.dropWhile isPyWs).reverse⟩

/-- Auxiliary splitter over character lists (single-character separator). -/
def splitCharAux (sep : Char) : List Char → List Char → List (List Char)
  | [], acc => [acc.reverse]
  | c :: cs, acc =>
      if c = sep then acc.reverse :: splitCharAux sep cs []
      else splitCharAux sep cs (c :: acc)

/-- Python `s.split(sep)` for a single-character separator: e.g.
`pySplit "a|b" '|' = ["a", "b"]`, `pySplit "" '|' = [""]`. -/
def pySplit (s : String) (sep : Char) : List String :=
  (splitCharAux sep s.data []).map (fun l => ⟨l⟩)

/-- Python `line[0] == c` on a line read from a file: lines read by iterating
a file are never empty (they hold at least the terminator), so on our
terminator-stripped model an empty string answers `false`. -/
def startsWithChar (c : Char) (s : String) : Bool :=
  match s.data with
  | [] => false
  | c0 :: _ => c0 = c

/-- Python `s[1:]`: drop the first character. -/
def pyDropFirst (s : String) : String := ⟨s.data.tail⟩

/-- Python `s.replace(',', '\t')`: single-character replacement is a map. -/
def pyReplaceCommaTab (s : String) : String :=
  ⟨s.data.map (fun c => if c = ',' then '\t' else c)⟩

/-! ## `utils.find_pssm_missing_proteins`

```python
def find_pssm_missing_proteins(set_proteins_fasta, pssm_dir):
    set_proteins_pssm = set()
    for file in os.listdir(pssm_dir):
        protein_id = file.split(".")[0]
        set_proteins_pssm.add(protein_id)
    return list(set_proteins_fasta - set_proteins_pssm)
```

The directory is modelled by the list of its filenames.  Python returns
`list(set difference)` whose element order is unspecified; we return the
deduplicated identifiers in first-occurrence order, which realises the same
set. -/

/-- The set `set_proteins_pssm` built from the directory listing: the
substring of each filename before its first `.`. -/
def present_ids (pssm_dir_files : List String) : List String :=
  pssm_dir_files.map (fun file => (pySplit file '.').headI)

/-- `find_pssm_missing_proteins`: the identifiers of `set_proteins_fasta`
with no matrix file in the directory. -/
def find_pssm_missing_proteins (set_proteins_fasta : List String)
    (pssm_dir_files : List String) : List String :=
  set_proteins_fasta.dedup.filter
    (fun p => ¬ (present_ids pssm_dir_files).contains p)

/-! ## Theorems for claim C2 -/

/-- **C2.** The missing-matrix resolver returns exactly the set difference
`ids - present(dir)`: an identifier is in the result iff it is one of the
given identifiers and no filename of the matrix directory has it as the
substring before the first `.`; when the directory is empty the result is
all of the given identifiers (as a set), and when the identifier set is
empty the result is empty. -/
theorem find_pssm_missing_proteins_set_difference
    (ids : List String) (files : List String) (x : String) :
    (x ∈ find_pssm_missing_proteins ids files ↔
      x ∈ ids ∧ ∀ f ∈ files, (pySplit f '.').headI ≠ x) ∧
    (find_pssm_missing_proteins ids []).toFinset = ids.toFinset ∧
    find_pssm_missing_proteins [] files = [] := by
  refine ⟨?_, ?_, rfl⟩
  · simp only [find_pssm_missing_proteins, present_ids, List.mem_filter,
      List.mem_dedup, List.elem_iff, decide_eq_true_eq, List.mem_map,
      not_exists, Bool.not_eq_true, decide_eq_false_iff_not]
    constructor
    · rintro ⟨hx, h⟩
      push_neg at h
      exact ⟨hx, fun f hf => h f hf⟩
    · rintro ⟨hx, h⟩
      refine ⟨hx, ?_⟩
      push_neg
      exact fun f hf => h f hf
  · ext a
    simp [find_pssm_missing_proteins, present_ids]

/-! ## `utils.read_fasta_to_dict`

```python
def read_fasta_to_dict(input_dir, fasta_file, place_protein_id):
    fasta_dict = dict()
    sequence = ""
    prot_id = ""
    with open(...) as fp:
        for line in fp:
            if line[0] == '>':
                if prot_id != "":
                    fasta_dict[prot_id] = sequence
                prot_id = line.strip().split("|")[place_protein_id]
                if place_protein_id == 0:
                    prot_id = prot_id[1:]
                if prot_id not in fasta_dict:
                    sequence = ""
                    fasta_dict[prot_id] = ""
            else:
                sequence += line.strip()
        fasta_dict[prot_id] = sequence
    return fasta_dict
```

A Python `dict` preserves insertion order and updates an existing key in
place; we model it as an association list with exactly those semantics. -/

/-- Python `key in dict` on the association-list model. -/
def containsKey (d : List (String × String)) (k : String) : Bool :=
  d.any (fun p => p.1 = k)

/-- Python `dict[k] = v`: update the entry in place when the key is present,
otherwise append it. -/
def updD (d : List (String × String)) (k v : String) :
    List (String × String) :=
  if containsKey d k then d.map (fun p => if p.1 = k then (k, v) else p)
  else d ++ [(k, v)]

/-- Identifier extraction from a header line (`feature_extracter` inner
lines): strip the line, split on `|`, take the field at `place_protein_id`,
and when that index is `0` drop the field's first character (the `>`
marker).  Out-of-range indices raise `IndexError` in Python; here `getD`
returns `""`, and every theorem using this stays inside the range. -/
def extract_header_id (line : String) (place_protein_id : Nat) : String :=
  let prot_id := (pySplit (pyStrip line) '|').getD place_protein_id ""
  if place_protein_id = 0 then pyDropFirst prot_id else prot_id

/-- One iteration of the `for line in fp` loop; the state is
`(fasta_dict, prot_id, sequence)`. -/
def read_fasta_step (place_protein_id : Nat)
    (st : List (String × String) × String × String) (line : String) :
    List (String × String) × String × String :=
  let (fasta_dict, prot_id, sequence) := st
  if startsWithChar '>' line then
    let fasta_dict :=
      if prot_id ≠ "" then updD fasta_dict prot_id sequence else fasta_dict
    let prot_id := extract_header_id line place_protein_id
    if ¬ containsKey fasta_dict prot_id then
      (updD fasta_dict prot_id "", prot_id, "")
    else (fasta_dict, prot_id, sequence)
  else (fasta_dict, prot_id, sequence ++ pyStrip line)

/-- `read_fasta_to_dict` on the file's lines (terminators removed). -/
def read_fasta_to_dict (lines : List String) (place_protein_id : Nat) :
    List (String × String) :=
  let (fasta_dict, prot_id, sequence) :=
    lines.foldl (read_fasta_step place_protein_id) ([], "", "")
  updD fasta_dict prot_id sequence

/-- The concatenation of a record's stripped sequence lines. -/
def concatStrip (seqs : List String) : String :=
  seqs.foldl (fun acc s => acc ++ pyStrip s) ""

/-! ### Parser lemmas -/

theorem read_fasta_foldl_non_headers (place : Nat) (seqs : List String)
    (h : ∀ s ∈ seqs, startsWithChar '>' s = false) (d : List (String × String))
    (pid sq : String) :
    seqs.foldl (read_fasta_step place) (d, pid, sq) =
      (d, pid, seqs.foldl (fun acc s => acc ++ pyStrip s) sq) := by
  induction seqs generalizing sq with
  | nil => rfl
  | cons s ss ih =>
      have hs : startsWithChar '>' s = false := h s (List.mem_cons_self s ss)
      have hss : ∀ t ∈ ss, startsWithChar '>' t = false :=
        fun t ht => h t (List.mem_cons_of_mem s ht)
      simp only [List.foldl_cons, read_fasta_step, hs, Bool.false_eq_true,
        if_false]
      exact ih hss _

theorem string_append_empty_left (s : String) : "" ++ s = s := by
  apply String.ext
  simp [String.data_append]

theorem string_append_assoc (a b c : String) :
    a ++ b ++ c = a ++ (b ++ c) := by
  apply String.ext
  simp [String.data_append, List.append_assoc]

theorem concatStrip_shift (seqs : List String) (a : String) :
    seqs.foldl (fun acc s => acc ++ pyStrip s) a = a ++ concatStrip seqs := by
  rw [concatStrip]
  induction seqs generalizing a with
  | nil => simp [String.append_empty]
  | cons s ss ih =>
      simp only [List.foldl_cons]
      rw [ih, ih (("" : String) ++ pyStrip s), string_append_empty_left,
        string_append_assoc]

theorem read_fasta_first_header_step (place : Nat) (h : String)
    (hh : startsWithChar '>' h = true) :
    read_fasta_step place ([], "", "") h =
      ([(extract_header_id h place, "")], extract_header_id h place, "") := by
  simp [read_fasta_step, hh, containsKey, updD]

/-! ### Theorems for claim C6 -/

/-- **C6.** Identifier extraction in the FASTA parser: on a single-record
file whose header is `h` (already free of surrounding whitespace, as a
stripped line is), the parser's sole key is obtained by splitting `h` on
`|`, taking the field at `place_protein_id`, and dropping the leading `>`
marker from that field exactly when the index is `0`. -/
theorem read_fasta_header_id_rule (h : String) (seqs : List String)
    (place : Nat) (hh : startsWithChar '>' h = true)
    (hseqs : ∀ s ∈ seqs, startsWithChar '>' s = false)
    (hclean : pyStrip h = h)
    (_hplace : place < (pySplit h '|').length) :
    (read_fasta_to_dict (h :: seqs) place).map Prod.fst =
      [if place = 0 then pyDropFirst ((pySplit h '|').getD place "")
       else (pySplit h '|').getD place ""] := by
  simp only [read_fasta_to_dict, List.foldl_cons]
  rw [read_fasta_first_header_step place h hh,
    read_fasta_foldl_non_headers place seqs hseqs]
  simp [updD, containsKey, extract_header_id, hclean]

/-- Witness for C6: the spec's scenario.  Header `>sp|O27002|...` with
identifier field index 1 yields identifier `O27002`. -/
theorem read_fasta_header_id_rule_witness :
    (read_fasta_to_dict [">sp|O27002|ARCH", "MKVL"] 1).map Prod.fst =
      ["O27002"] := by
  have h := read_fasta_header_id_rule ">sp|O27002|ARCH" ["MKVL"] 1
    (by decide) (by decide) (by decide) (by decide)
  rw [h]
  decide

/-! ### Theorems for claim C10 -/

/-- **C10 (counterexample).** With an intervening record between two
occurrences of the same identifier, the final mapping value for that
identifier is NOT the concatenation of the first and second occurrences'
sequences: for `[">x|A", "SEQ1", ">x|B", "SEQ2", ">x|A", "SEQ3"]` the final
value for `A` is `SEQ2SEQ3` (the intervening record's sequence merged with
the repeat's lines), not `SEQ1SEQ3`; the first occurrence's `SEQ1` is
dropped. -/
theorem read_fasta_duplicate_intervening_counterexample :
    List.lookup "A"
        (read_fasta_to_dict [">x|A", "SEQ1", ">x|B", "SEQ2", ">x|A", "SEQ3"] 1)
      = some "SEQ2SEQ3" ∧ ("SEQ2SEQ3" : String) ≠ "SEQ1" ++ "SEQ3" := by
  exact ⟨by decide, by decide⟩

theorem updD_singleton (k x v : String) : updD [(k, x)] k v = [(k, v)] := by
  simp [updD, containsKey]

theorem read_fasta_repeat_header_step (place : Nat) (h c1 x : String)
    (hh : startsWithChar '>' h = true) :
    read_fasta_step place
        ([(extract_header_id h place, x)], extract_header_id h place, c1) h =
      ((if extract_header_id h place = "" then [(extract_header_id h place, x)]
        else [(extract_header_id h place, c1)]),
        extract_header_id h place, c1) := by
  by_cases hp : extract_header_id h place = ""
  · simp [read_fasta_step, hh, hp, containsKey, updD]
  · simp [read_fasta_step, hh, hp, containsKey, updD]

/-- **C10 (amended).** When the second occurrence of an identifier
immediately follows the first record (no intervening record), the sequence
accumulator is not reset on the repeated identifier and the final mapping
holds a single entry whose value is the concatenation of the first record's
sequence lines with the second record's sequence lines.  (With intervening
records the first occurrence's sequence is overwritten instead; see the
counterexample.) -/
theorem read_fasta_duplicate_adjacent_merge (place : Nat) (h : String)
    (seqs1 seqs2 : List String) (hh : startsWithChar '>' h = true)
    (h1 : ∀ s ∈ seqs1, startsWithChar '>' s = false)
    (h2 : ∀ s ∈ seqs2, startsWithChar '>' s = false) :
    read_fasta_to_dict (h :: seqs1 ++ h :: seqs2) place =
      [(extract_header_id h place, concatStrip seqs1 ++ concatStrip seqs2)] := by
  have hsplit : h :: seqs1 ++ h :: seqs2 = (h :: seqs1) ++ (h :: seqs2) := by
    simp
  rw [read_fasta_to_dict, hsplit, List.foldl_append]
  simp only [List.foldl_cons]
  rw [read_fasta_first_header_step place h hh,
    read_fasta_foldl_non_headers place seqs1 h1,
    concatStrip_shift seqs1 "", string_append_empty_left,
    read_fasta_repeat_header_step place h (concatStrip seqs1) "" hh,
    read_fasta_foldl_non_headers place seqs2 h2,
    concatStrip_shift seqs2 (concatStrip seqs1)]
  by_cases hp : extract_header_id h place = ""
  · rw [if_pos hp, updD_singleton]
  · rw [if_neg hp, updD_singleton]

/-- Witness for C10's amended theorem: adjacent duplicate records for
identifier `A` merge into the single entry `SEQ1SEQ3`. -/
theorem read_fasta_duplicate_adjacent_merge_witness :
    read_fasta_to_dict [">x|A", "SEQ1", ">x|A", "SEQ3"] 1 =
      [("A", "SEQ1SEQ3")] := by
  have h := read_fasta_duplicate_adjacent_merge 1 ">x|A" ["SEQ1"] ["SEQ3"]
    (by decide) (by decide) (by decide)
  simp only [List.cons_append, List.nil_append] at h
  rw [h]
  decide

/-! ## `utils.edit_extracted_features_POSSUM`

```python
def edit_extracted_features_POSSUM(temp_output_file, output_file, fasta_dict):
    with open(temp_output_file, 'r') as fp:
        fw = open(output_file, 'w')
        for line, prot_id in zip(fp, fasta_dict):
           fw.write('{}\t{}\n'.format(prot_id, line.strip().replace(',', '\t')))
        fw.close()
    fp.close()
    os.remove(temp_output_file)
```

The raw file is modelled by its list of lines, `fasta_dict` by its ordered
key list; the result is the list of written output lines (without their
terminators). -/

def edit_extracted_features_POSSUM (raw_lines : List String)
    (fasta_ids : List String) : List String :=
  (raw_lines.zip fasta_ids).map
    (fun p => p.2 ++ "\t" ++ pyReplaceCommaTab (pyStrip p.1))

/-! ### Theorems for claim C3 -/

/-- **C3 (counterexample).** With a raw file of 1 line and 2 proteins the
normalizer does not fail: `zip` silently truncates, and a 1-line output
file is produced (the source has no error path at all). -/
theorem edit_POSSUM_truncates_silently :
    edit_extracted_features_POSSUM ["1,2"] ["A", "B"] = ["A\t1\t2"] ∧
      (["1,2"] : List String).length < (["A", "B"] : List String).length := by
  exact ⟨by decide, by decide⟩

/-- **C3 (amended).** The normalizer never fails: it always writes exactly
`min (raw line count) (protein count)` lines, so a raw file with fewer
lines than proteins yields a silently truncated output file. -/
theorem edit_POSSUM_length_min (raw_lines fasta_ids : List String) :
    (edit_extracted_features_POSSUM raw_lines fasta_ids).length =
      min raw_lines.length fasta_ids.length := by
  simp [edit_extracted_features_POSSUM]

/-! ### Theorems for claim C8 -/

/-- **C8.** When the raw line count equals the protein count, output line
`i` is the `i`-th identifier in FASTA parse order, a tab, then the `i`-th
raw line (stripped of its terminator) with every comma replaced by a
tab. -/
theorem edit_POSSUM_line_shape (raw_lines fasta_ids : List String)
    (i : Nat) (hlen : raw_lines.length = fasta_ids.length)
    (hi : i < fasta_ids.length) :
    (edit_extracted_features_POSSUM raw_lines fasta_ids).getD i "" =
      fasta_ids.getD i "" ++ "\t" ++
        pyReplaceCommaTab (pyStrip (raw_lines.getD i "")) := by
  have hiz : i < (raw_lines.zip fasta_ids).length := by
    rw [List.length_zip, hlen, Nat.min_self]
    exact hi
  have hir : i < raw_lines.length := by rw [hlen]; exact hi
  rw [edit_extracted_features_POSSUM, List.getD_eq_getElem _ _ (by
    simpa using hiz)]
  rw [List.getElem_map, List.getElem_zip,
    List.getD_eq_getElem _ _ hi, List.getD_eq_getElem _ _ hir]

/-- Witness for C8 at a concrete two-protein input. -/
theorem edit_POSSUM_line_shape_witness :
    (edit_extracted_features_POSSUM ["1,2", "3,4"] ["A", "B"]).getD 1 "" =
      (["A", "B"] : List String).getD 1 "" ++ "\t" ++
        pyReplaceCommaTab (pyStrip ((["1,2", "3,4"] : List String).getD 1 "")) :=
  edit_POSSUM_line_shape ["1,2", "3,4"] ["A", "B"] 1 rfl (by decide)

/-! ## `utils.edit_extracted_features_iFeature`

```python
def edit_extracted_features_iFeature(temp_output_file, output_file, place_protein_id):
    with open(temp_output_file, 'r') as fp:
        fw = open(output_file, 'w')
        for line in fp:
            if line[0] == '#':
                continue
            else:
                line_split = line.strip().split('\t')
                protein_id = line_split[0].split('|')[place_protein_id]
                fw.write(protein_id)
                for feature in line_split[1:]:
                    fw.write('\t{}'.format(feature))
                fw.write('\n')
        fw.close()
    fp.close()
    os.remove(temp_output_file)
```
-/

/-- The line written for one non-comment raw line: the identifier extracted
from the first tab field by the pipe-positional rule, then each remaining
field preceded by a tab. -/
def process_iFeature_line (place_protein_id : Nat) (line : String) : String :=
  let line_split := pySplit (pyStrip line) '\t'
  let protein_id := (pySplit line_split.headI '|').getD place_protein_id ""
  line_split.tail.foldl (fun acc feature => acc ++ "\t" ++ feature) protein_id

/-- `edit_extracted_features_iFeature` as the loop over raw lines,
accumulating the written output lines. -/
def edit_extracted_features_iFeature (raw_lines : List String)
    (place_protein_id : Nat) : List String :=
  raw_lines.foldl
    (fun acc line =>
      if startsWithChar '#' line then acc
      else acc ++ [process_iFeature_line place_protein_id line])
    []

/-- Tab-join of a nonempty field list, as the claim describes the output
line: first field, then the remaining fields each preceded by a tab. -/
def joinTabs : List String → String
  | [] => ""
  | [x] => x
  | x :: y :: ys => x ++ "\t" ++ joinTabs (y :: ys)

theorem joinTabs_cons_cons (x y : String) (ys : List String) :
    joinTabs (x :: y :: ys) = x ++ "\t" ++ joinTabs (y :: ys) := rfl

/-- The encoding-family normalizer as the claim words it: omit every raw
line starting with `#`; for every other raw line, split on tab, replace the
first field by the identifier extracted from it with the pipe-delimited
positional rule, and keep the remaining tab-separated feature values
unchanged. -/
def iFeature_normalized_spec (raw_lines : List String)
    (place_protein_id : Nat) : List String :=
  (raw_lines.filter (fun l => ¬ startsWithChar '#' l)).map
    (fun line =>
      let fields := pySplit (pyStrip line) '\t'
      joinTabs ((pySplit fields.headI '|').getD place_protein_id ""
        :: fields.tail))

theorem foldl_tab_append_joinTabs (l : List String) (a : String) :
    l.foldl (fun acc feature => acc ++ "\t" ++ feature) a =
      joinTabs (a :: l) := by
  induction l generalizing a with
  | nil => rfl
  | cons x xs ih =>
      rw [List.foldl_cons, ih]
      cases xs with
      | nil => rfl
      | cons y ys =>
          simp only [joinTabs_cons_cons]
          apply String.ext
          simp [String.data_append, List.append_assoc]

theorem process_iFeature_line_eq_spec (place : Nat) (line : String) :
    process_iFeature_line place line =
      joinTabs ((pySplit (pySplit (pyStrip line) '\t').headI '|').getD place ""
        :: (pySplit (pyStrip line) '\t').tail) := by
  rw [process_iFeature_line, foldl_tab_append_joinTabs]

/-! ### Theorems for claim C9 -/

/-- **C9.** The encoding-family normalizer omits every raw line starting
with `#` and maps every other raw line to: the identifier extracted from
the first tab field by the pipe-delimited positional rule, followed by the
remaining tab-separated feature values unchanged. -/
theorem edit_iFeature_eq_spec (raw_lines : List String) (place : Nat) :
    edit_extracted_features_iFeature raw_lines place =
      iFeature_normalized_spec raw_lines place := by
  rw [edit_extracted_features_iFeature, iFeature_normalized_spec]
  have key : ∀ (ls : List String) (acc : List String),
      ls.foldl
          (fun acc line =>
            if startsWithChar '#' line then acc
            else acc ++ [process_iFeature_line place line]) acc =
        acc ++ (ls.filter (fun l => ¬ startsWithChar '#' l)).map
          (fun line =>
            let fields := pySplit (pyStrip line) '\t'
            joinTabs ((pySplit fields.headI '|').getD place ""
              :: fields.tail)) := by
    intro ls
    induction ls with
    | nil => intro acc; simp
    | cons l ls ih =>
        intro acc
        by_cases hl : startsWithChar '#' l = true
        · simp only [List.foldl_cons, hl, if_true, List.filter_cons,
            Bool.not_true, Bool.false_eq_true, if_false]
          rw [ih]
          simp [hl]
        · simp only [List.foldl_cons, hl, Bool.false_eq_true, if_false,
            List.filter_cons]
          rw [ih]
          simp only [Bool.not_eq_true] at hl
          simp [hl, process_iFeature_line_eq_spec]
  simpa using key raw_lines []

/-! ## Descriptor vocabularies (`feature_extracter.__init__`)

The source stores both vocabularies as Python sets; we keep them as lists
in source order (set iteration order is unspecified, which no theorem below
depends on). -/

def POSSUM_desc_list : List String :=
  ["aac_pssm", "d_fpssm", "smoothed_pssm", "ab_pssm", "pssm_composition",
   "rpm_pssm", "s_fpssm", "dpc_pssm", "k_separated_bigrams_pssm", "eedp",
   "tpc", "edp", "rpssm", "pse_pssm", "dp_pssm", "pssm_ac", "pssm_cc",
   "aadp_pssm", "aatp", "medp", "tri_gram_pssm", "all_POSSUM"]

def iFeature_desc_list : List String :=
  ["AAC", "PAAC", "APAAC", "DPC", "GAAC", "CKSAAP", "CKSAAGP", "GDPC",
   "Moran", "Geary", "NMBroto", "CTDC", "CTDD", "CTDT", "CTriad",
   "KSCTriad", "SOCNumber", "QSOrder", "all_iFeature"]

/-! ### Theorems for claim C5 -/

/-- **C5 (counterexample).** The claim's counts are wrong on the code: the
PSSM-family vocabulary does not hold 20 concrete names and the
encoding-family vocabulary does not hold 17. -/
theorem desc_list_counts_refute_claim :
    ¬ ((POSSUM_desc_list.filter (fun d => d ≠ "all_POSSUM")).dedup.length = 20
       ∧ (iFeature_desc_list.filter
            (fun d => d ≠ "all_iFeature")).dedup.length = 17) := by
  decide

/-- **C5 (amended).** The PSSM-family vocabulary consists of exactly 21
distinct concrete descriptor names plus the `all_POSSUM` alias, and the
encoding-family vocabulary of exactly 18 distinct concrete names plus the
`all_iFeature` alias. -/
theorem desc_list_counts :
    POSSUM_desc_list.Nodup ∧
      (POSSUM_desc_list.filter (fun d => d ≠ "all_POSSUM")).length = 21 ∧
      "all_POSSUM" ∈ POSSUM_desc_list ∧
      iFeature_desc_list.Nodup ∧
      (iFeature_desc_list.filter (fun d => d ≠ "all_iFeature")).length = 18 ∧
      "all_iFeature" ∈ iFeature_desc_list := by
  decide

/-! ## Side-effect traces

Network requests, subprocess invocations and file writes performed by the
acquisition stage and the extraction loops are recorded as events. -/

inductive FxEvent where
  /-- `requests.get` on the remote PSSM endpoint for one identifier. -/
  | netFetch (prot_id : String)
  /-- A `{id}.pssm` matrix file written into the matrix directory. -/
  | writePssm (prot_id : String)
  /-- A single-record scratch FASTA file written for one identifier. -/
  | writeSingleFasta (prot_id : String)
  /-- The local `psiblast` search subprocess run for one identifier. -/
  | runPsiblast (prot_id : String)
  /-- The POSSUM toolkit subprocess run with one descriptor name. -/
  | runPossum (descriptor : String)
  /-- The iFeature toolkit subprocess run with one descriptor name. -/
  | runIFeature (descriptor : String)
  /-- A normalized feature file written at the given output path. -/
  | writeFeatureFile (path : String)
  deriving DecidableEq, Repr

/-! ## `utils.copy_pssms`, `utils.form_single_fasta_files`,
`utils.form_missing_pssm_files`, `utils.copy_form_pssm_matrices`

`copy_pssms` fetches each missing identifier's matrix over HTTP, writing
`{id}.pssm` on success and skipping the identifier on an HTTP error; the
oracle `fetch` tells which requests succeed.  The matrix directory is the
list of its filenames. -/

def copy_pssms (fetch : String → Bool) (ids : List String) :
    List FxEvent × List String :=
  ids.foldl
    (fun acc prot_id =>
      if fetch prot_id then
        (acc.1 ++ [FxEvent.netFetch prot_id, FxEvent.writePssm prot_id],
         acc.2 ++ [prot_id ++ ".pssm"])
      else (acc.1 ++ [FxEvent.netFetch prot_id], acc.2))
    ([], [])

/-- `form_single_fasta_files` followed by `form_missing_pssm_files`: write
one scratch FASTA per still-missing identifier, then run `psiblast` once
per scratch file, each run writing the identifier's `{id}.pssm` matrix. -/
def regenerate_pssms (ids : List String) : List FxEvent × List String :=
  (ids.map FxEvent.writeSingleFasta ++
     ids.flatMap (fun prot_id =>
       [FxEvent.runPsiblast prot_id, FxEvent.writePssm prot_id]),
   ids.map (fun prot_id => prot_id ++ ".pssm"))

/-- `copy_form_pssm_matrices`: resolve the missing set, remote-fetch it when
nonempty, re-resolve, and regenerate what is still missing.  Returns the
event trace and the final matrix-directory listing. -/
def copy_form_pssm_matrices (fetch : String → Bool) (ids : List String)
    (pssm_dir_files : List String) : List FxEvent × List String :=
  let list_proteins_no_pssm1 := find_pssm_missing_proteins ids pssm_dir_files
  let fetched :=
    if list_proteins_no_pssm1.length ≠ 0 then
      copy_pssms fetch list_proteins_no_pssm1
    else ([], [])
  let files1 := pssm_dir_files ++ fetched.2
  let list_proteins_no_pssm2 := find_pssm_missing_proteins ids files1
  let regen :=
    if list_proteins_no_pssm2.length ≠ 0 then
      regenerate_pssms list_proteins_no_pssm2
    else ([], [])
  (fetched.1 ++ regen.1, files1 ++ regen.2)

/-! ### Theorems for claim C7 -/

/-- **C7.** When no identifier is missing a matrix, the acquisition stage
performs no events at all — no network call, no subprocess, no write — and
the matrix directory listing is returned unchanged. -/
theorem copy_form_pssm_matrices_no_missing_frame (fetch : String → Bool)
    (ids : List String) (pssm_dir_files : List String)
    (hmiss : find_pssm_missing_proteins ids pssm_dir_files = []) :
    copy_form_pssm_matrices fetch ids pssm_dir_files = ([], pssm_dir_files) := by
  rw [copy_form_pssm_matrices]
  simp [hmiss]

/-- Witness for C7: the spec's scenario — a matrix directory containing
`O27002.pssm` and a FASTA containing only `O27002` yield an empty missing
set, no events, and an unchanged directory. -/
theorem copy_form_pssm_matrices_no_missing_frame_witness :
    copy_form_pssm_matrices (fun _ => false) ["O27002"] ["O27002.pssm"] =
      ([], ["O27002.pssm"]) :=
  copy_form_pssm_matrices_no_missing_frame (fun _ => false) ["O27002"]
    ["O27002.pssm"] (by decide)

/-! ## `feature_extracter.extract_POSSUM_feature` and
`feature_extracter.extract_iFeature_feature`

```python
def extract_POSSUM_feature(self):
    fasta_dict = read_fasta_to_dict(...)
    copy_form_pssm_matrices(fasta_dict)
    list_desc = [self.protein_feature]
    if self.protein_feature == 'all_POSSUM':
        list_desc = self.POSSUM_desc_list - {'all_POSSUM'}
    for prot_feat in list_desc:
        ...os.system('python .../possum.py ... -t {prot_feat} ...')
        ...
        edit_extracted_features_POSSUM(temp_output_file, output_file, fasta_dict)
        return output_file
```

The `return output_file` sits INSIDE the `for` body, so the loop runs its
body exactly once: only the first iterated descriptor is invoked and
normalized.  The embedding therefore processes only the head of
`list_desc`.  (Which element of the Python set comes first is unspecified;
every theorem below counts events, which is order-invariant.) -/

/-- The final output path for one descriptor:
`feature_extraction_output/{input_folder_basename}/{fasta}_{desc}.txt`. -/
def descriptor_output_path (input_folder fasta_file_name descriptor : String) :
    String :=
  "feature_extraction_output/" ++ (pySplit input_folder '/').getLastD "" ++
    "/" ++ fasta_file_name ++ "_" ++ descriptor ++ ".txt"

/-- `extract_POSSUM_feature`: parse the FASTA, acquire missing matrices,
then iterate the descriptor list — but the source's early `return` makes
the loop body run at most once. -/
def extract_POSSUM_feature (fetch : String → Bool)
    (pssm_dir_files : List String) (fasta_lines : List String)
    (place_protein_id : Nat)
    (protein_feature fasta_file_name input_folder : String) :
    List FxEvent × Option String :=
  let fasta_dict := read_fasta_to_dict fasta_lines place_protein_id
  let acq :=
    copy_form_pssm_matrices fetch (fasta_dict.map Prod.fst) pssm_dir_files
  let list_desc :=
    if protein_feature = "all_POSSUM" then
      POSSUM_desc_list.filter (fun d => d ≠ "all_POSSUM")
    else [protein_feature]
  match list_desc with
  | [] => (acq.1, none)
  | prot_feat :: _ =>
      let output_file :=
        descriptor_output_path input_folder fasta_file_name prot_feat
      (acq.1 ++ [FxEvent.runPossum prot_feat,
        FxEvent.writeFeatureFile output_file], some output_file)

/-- `extract_iFeature_feature`: same loop shape and same early `return`;
no FASTA parse and no matrix acquisition. -/
def extract_iFeature_feature
    (protein_feature fasta_file_name input_folder : String) :
    List FxEvent × Option String :=
  let list_desc :=
    if protein_feature = "all_iFeature" then
      iFeature_desc_list.filter (fun d => d ≠ "all_iFeature")
    else [protein_feature]
  match list_desc with
  | [] => ([], none)
  | prot_feat :: _ =>
      let output_file :=
        descriptor_output_path input_folder fasta_file_name prot_feat
      ([FxEvent.runIFeature prot_feat,
        FxEvent.writeFeatureFile output_file], some output_file)

/-- Is this event a POSSUM toolkit invocation? -/
def isRunPossum : FxEvent → Bool
  | FxEvent.runPossum _ => true
  | _ => false

/-- Is this event an iFeature toolkit invocation? -/
def isRunIFeature : FxEvent → Bool
  | FxEvent.runIFeature _ => true
  | _ => false

/-- Is this event a normalized-feature-file write? -/
def isWriteFeatureFile : FxEvent → Bool
  | FxEvent.writeFeatureFile _ => true
  | _ => false

/-- A concrete 3-protein FASTA file (spec scenario for the all-mode run). -/
def threeProteinFasta : List String :=
  [">sp|O27002|A", "MKV", ">sp|P12345|B", "MAA", ">sp|Q99999|C", "MGG"]

/-- The matrix directory already covering the three proteins. -/
def threeProteinPssmDir : List String :=
  ["O27002.pssm", "P12345.pssm", "Q99999.pssm"]

/-! ### Theorems for claim C1 -/

/-- **C1 (code bug).** In "all" mode the extraction does NOT invoke the
tool once per concrete descriptor: running `all_POSSUM` on a 3-protein
FASTA invokes the POSSUM toolkit exactly once and writes exactly one
output file, although the vocabulary holds 21 concrete descriptors
(`all_iFeature` likewise: one invocation against 18 concrete descriptors).
The `return output_file` inside the `for` body ends the loop after its
first iteration, contradicting the claim, the spec's scenario and the
source's own docstring. -/
theorem extract_all_mode_runs_single_descriptor :
    ((extract_POSSUM_feature (fun _ => false) threeProteinPssmDir
        threeProteinFasta 1 "all_POSSUM" "sample" "input_folder").1.countP
          isRunPossum = 1 ∧
      (extract_POSSUM_feature (fun _ => false) threeProteinPssmDir
        threeProteinFasta 1 "all_POSSUM" "sample" "input_folder").1.countP
          isWriteFeatureFile = 1 ∧
      (POSSUM_desc_list.filter (fun d => d ≠ "all_POSSUM")).length = 21) ∧
    ((extract_iFeature_feature "all_iFeature" "sample"
        "input_folder").1.countP isRunIFeature = 1 ∧
      (iFeature_desc_list.filter (fun d => d ≠ "all_iFeature")).length = 18) := by
  decide

/-! ## `extract_protein_feature` (dispatch entry point)

Modelled from the spec: the public entry point
`feature_extracter.extract_protein_feature` shown in `usage()` is not part
of the two source files under review (only its docstring and its two branch
methods are); per the spec it selects the family by vocabulary membership
and rejects a name in neither vocabulary with an `UnknownDescriptor` error
before any subprocess is spawned. -/

inductive ExtractError where
  | UnknownDescriptor
  deriving DecidableEq, Repr

/-- Modelled from the spec: dispatch on the two vocabularies of
`feature_extracter.__init__`; an unknown name yields the error with an
empty event trace (nothing spawned, nothing written). -/
def extract_protein_feature (fetch : String → Bool)
    (pssm_dir_files : List String) (fasta_lines : List String)
    (place_protein_id : Nat)
    (protein_feature fasta_file_name input_folder : String) :
    List FxEvent × Except ExtractError (Option String) :=
  if POSSUM_desc_list.contains protein_feature then
    let r := extract_POSSUM_feature fetch pssm_dir_files fasta_lines
      place_protein_id protein_feature fasta_file_name input_folder
    (r.1, Except.ok r.2)
  else if iFeature_desc_list.contains protein_feature then
    let r := extract_iFeature_feature protein_feature fasta_file_name
      input_folder
    (r.1, Except.ok r.2)
  else ([], Except.error ExtractError.UnknownDescriptor)

/-! ### Theorems for claim C4 -/

/-- **C4.** A descriptor name in neither vocabulary is rejected with an
`UnknownDescriptor` error and an empty event trace: no subprocess is
spawned (and nothing else happens) before the rejection. -/
theorem extract_protein_feature_unknown_descriptor (fetch : String → Bool)
    (pssm_dir_files fasta_lines : List String) (place_protein_id : Nat)
    (protein_feature fasta_file_name input_folder : String)
    (hp : protein_feature ∉ POSSUM_desc_list)
    (hi : protein_feature ∉ iFeature_desc_list) :
    extract_protein_feature fetch pssm_dir_files fasta_lines place_protein_id
        protein_feature fasta_file_name input_folder =
      ([], Except.error ExtractError.UnknownDescriptor) := by
  rw [extract_protein_feature]
  rw [if_neg (by simpa [List.elem_iff] using hp),
    if_neg (by simpa [List.elem_iff] using hi)]

/-- Witness for C4 at the unknown name `not_a_descriptor`. -/
theorem extract_protein_feature_unknown_descriptor_witness :
    extract_protein_feature (fun _ => false) [] [] 1 "not_a_descriptor"
        "sample" "input_folder" =
      ([], Except.error ExtractError.UnknownDescriptor) :=
  extract_protein_feature_unknown_descriptor (fun _ => false) [] [] 1
    "not_a_descriptor" "sample" "input_folder" (by decide) (by decide)

end ProFAB
